import Mathlib

set_option autoImplicit false

/-!
Shallow embedding of the HelenOS user-space async IPC framework
(src/libc/generic/async.c) and the UDP association layer
(src/uspace/srv/net/udp/assoc.c), together with proofs checking the
natural-language specification against the code.

Machine integers (`suseconds_t`, `time_t`, `ipcarg_t`, ports, hashes) are
modelled as `Int`/`Nat`; C signed division and modulus truncate toward
zero, hence `Int.tdiv`/`Int.tmod` where they occur.  Stateful C code is
embedded as explicit state-passing functions; where the order of side
effects matters, the function additionally (or instead) produces an event
trace in program order.  `malloc` results are modelled as a `Bool`
("allocation succeeded") and a dereference of a failed allocation is the
explicit outcome `CResult.nullDeref`.
-/

namespace HelenOS

/-- Modelled from the spec: the error codes surfaced across the boundary
(`EOK=0`, `ENOMEM`, `ENOENT`, `EHANGUP`, `ETIMEOUT`, `EINVAL`, `EIO`,
`ENXIO`) are defined in headers outside src/; only their identity and
mutual distinctness matter here. -/
def EOK : Int := 0

/-- Modelled from the spec: no-entry error code (headers outside src/). -/
def ENOENT : Int := -1

/-- Modelled from the spec: out-of-memory error code (headers outside src/). -/
def ENOMEM : Int := -2

/-- Modelled from the spec: hangup error code (headers outside src/). -/
def EHANGUP : Int := -7

/-- Modelled from the spec: timeout error code (headers outside src/). -/
def ETIMEOUT : Int := -12

/-- Modelled from the spec: invalid-argument error code (headers outside src/). -/
def EINVAL : Int := -14

/-- Modelled from the spec: transport I/O error code (headers outside src/). -/
def EIO : Int := -15

/-- Modelled from the spec: no-such-device error code (headers outside src/),
returned by `udp_assoc_recv` on a reset association. -/
def ENXIO : Int := -16

/-- `struct timeval` as used by src/libc/generic/async.c: seconds and
microseconds, modelled as unbounded integers. -/
structure Timeval where
  tv_sec : Int
  tv_usec : Int
deriving Repr, DecidableEq

/-- `tv_add` (src/libc/generic/async.c lines 134-142): add microseconds to a
timeval.  C `/` and `%` on signed operands truncate toward zero, hence
`Int.tdiv`/`Int.tmod`.  Note the renormalization test is the strict
`tv_usec > 1000000` of the source. -/
def tv_add (tv : Timeval) (usecs : Int) : Timeval :=
  let sec := tv.tv_sec + Int.tdiv usecs 1000000
  let usec := tv.tv_usec + Int.tmod usecs 1000000
  if usec > 1000000 then
    { tv_sec := sec + 1, tv_usec := usec - 1000000 }
  else
    { tv_sec := sec, tv_usec := usec }

/-- `tv_sub` (async.c lines 145-153): microsecond difference of two timevals. -/
def tv_sub (tv1 tv2 : Timeval) : Int :=
  (tv1.tv_usec - tv2.tv_usec) + (tv1.tv_sec - tv2.tv_sec) * 1000000

/-- `tv_gt` (async.c lines 159-166): 1 iff `tv1 > tv2`. -/
def tv_gt (tv1 tv2 : Timeval) : Bool :=
  if tv1.tv_sec > tv2.tv_sec then true
  else if tv1.tv_sec = tv2.tv_sec ∧ tv1.tv_usec > tv2.tv_usec then true
  else false

/-- `ipc_call_t`: the kernel call payload, reduced to the fields the async
framework reads (`in_phone_hash`, the method and arguments). -/
structure IpcCall where
  in_phone_hash : Nat
  method : Nat
  arg1 : Nat
  arg2 : Nat
  arg3 : Nat
  arg4 : Nat
  arg5 : Nat
deriving Repr, DecidableEq, Inhabited

/-- `msg_t` (async.c lines 113-117): one routed incoming call queued on a
connection's FIFO. -/
structure Msg where
  callid : Nat
  call : IpcCall
deriving Repr, DecidableEq

/-- `connection_t` (async.c lines 119-129).  The handler function pointer
`cthread` is left abstract; the trace model below records its invocation as
an event. -/
structure Connection where
  in_phone_hash : Nat
  msg_queue : List Msg
  ptid : Nat
  active : Bool
  callid : Nat
  call : IpcCall
deriving Repr, DecidableEq

/-- Outcome of a C computation that may dereference a null pointer: either a
value, or the explicit null-pointer dereference the C code performs when a
`malloc` result is used unchecked. -/
inductive CResult (α : Type) where
  | ok (a : α)
  | nullDeref
deriving Repr, DecidableEq

/-- `hash_table_find` on the connection table (keyed by `in_phone_hash`,
unique keys): the open-chained 32-bucket table is modelled as a flat list,
which is faithful for lookup because keys are unique. -/
def hash_table_find (table : List Connection) (key : Nat) : Option Connection :=
  table.find? (fun c => c.in_phone_hash == key)

/-- Queue-append step of `route_call` (async.c lines 221-229): `list_append`
puts the new `msg_t` at the tail of `conn->msg_queue`, and the connection
ends up active (`conn->active = 1` when it was not). -/
def connEnqueue (conn : Connection) (callid : Nat) (call : IpcCall) : Connection :=
  { conn with msg_queue := conn.msg_queue ++ [⟨callid, call⟩], active := true }

/-- `route_call` (async.c lines 204-234).  `alloc` models the result of
`malloc(sizeof(*msg))`; the C code stores through the pointer
(`msg->callid = callid`) without any null check, so a failed allocation is
the null-pointer dereference `CResult.nullDeref`.  On success returns
whether the call was routed (1/0 in C) and the updated table. -/
def route_call (table : List Connection) (callid : Nat) (call : IpcCall)
    (alloc : Bool) : CResult (Bool × List Connection) :=
  match hash_table_find table call.in_phone_hash with
  | none => .ok (false, table)
  | some _ =>
    if alloc then
      .ok (true, table.map (fun c =>
        if c.in_phone_hash == call.in_phone_hash then connEnqueue c callid call
        else c))
    else
      .nullDeref

/-- `async_get_call` (async.c lines 237-260): pop the head of the current
connection's FIFO.  An empty queue parks the fiber (`conn->active = 0`,
yield to the manager), modelled as `none`; the caller is resumed only after
the router has enqueued a message. -/
def async_get_call (conn : Connection) : Option (Msg × Connection) :=
  match conn.msg_queue with
  | [] => none
  | msg :: rest => some (msg, { conn with msg_queue := rest })

/-- One operation on a single connection's FIFO: an enqueue by `route_call`
or a dequeue attempt by `async_get_call`. -/
inductive QOp where
  | enq (callid : Nat) (call : IpcCall)
  | deq
deriving Repr, DecidableEq

/-- Run a sequence of FIFO operations on a connection, collecting the
messages `async_get_call` delivers, in delivery order.  A `deq` on an empty
queue blocks and delivers nothing (the fiber is parked until a later
enqueue). -/
def runQueueOps (conn : Connection) : List QOp → List Msg × Connection
  | [] => ([], conn)
  | QOp.enq cid c :: ops => runQueueOps (connEnqueue conn cid c) ops
  | QOp.deq :: ops =>
    match async_get_call conn with
    | none => runQueueOps conn ops
    | some (m, conn2) =>
      let r := runQueueOps conn2 ops
      (m :: r.1, r.2)

/-- The messages enqueued by a sequence of FIFO operations, in enqueue
order. -/
def enqList : List QOp → List Msg
  | [] => []
  | QOp.enq cid c :: ops => ⟨cid, c⟩ :: enqList ops
  | QOp.deq :: ops => enqList ops

/-- Events of the connection fiber wrapper, in program order. -/
inductive ConnEvent where
  | callHandler (callid : Nat)
  | hashTableRemove (key : Nat)
  | freeConn
  | answerCall (callid : Nat) (retcode : Int)
  | freeMsg (callid : Nat)
deriving Repr, DecidableEq

/-- Drain loop of `connection_thread` (async.c lines 296-301): answer each
queued call with `EHANGUP` and free the `msg_t`. -/
def flushQueue : List Msg → List ConnEvent
  | [] => []
  | msg :: rest =>
    ConnEvent.answerCall msg.callid EHANGUP ::
    ConnEvent.freeMsg msg.callid ::
    flushQueue rest

/-- `connection_thread` (async.c lines 279-302) as an event trace in source
order: run the handler on the opening call, then `hash_table_remove` the
connection — whose `remove_callback` is `conn_remove` (lines 186-189),
which `free`s the `connection_t` (`freeConn` here) — and only after that
walk `conn->msg_queue`, answering each still-queued call with `EHANGUP`
and freeing it. -/
def connection_thread (conn : Connection) : List ConnEvent :=
  ConnEvent.callHandler conn.callid ::
  ConnEvent.hashTableRemove conn.in_phone_hash ::
  ConnEvent.freeConn ::
  flushQueue conn.msg_queue

/-- `amsg_t` (async.c lines 100-111): one outstanding (in-flight) message.
The C `ipc_call_t *dataptr` is modelled as the flag `hasDataptr` (pointer
non-null) plus `dataCell`, the contents of the pointed-to cell. -/
structure Amsg where
  ptid : Nat
  active : Bool
  done : Bool
  hasDataptr : Bool
  dataCell : IpcCall
  expires : Timeval
  has_timeout : Bool
  retval : Nat
deriving Repr, DecidableEq

/-- `async_send_2` (async.c lines 518-530).  `garbage` is the uninitialized
content of the freshly `malloc`ed `amsg_t` (only `active`, `done` and
`dataptr` are assigned); `alloc` models the `malloc` result, which the C
code dereferences (`msg->active = 1`) without a null check, hence
`CResult.nullDeref` on failure.  The kernel call `ipc_call_async_2` is
issued with `reply_received` as callback; the returned `amsg_t` is the
opaque message id. -/
def async_send_2 (_phoneid _method _arg1 _arg2 : Nat) (garbage : Amsg)
    (hasDataptr : Bool) (alloc : Bool) : CResult Amsg :=
  if alloc then
    .ok { garbage with active := true, done := false, hasDataptr := hasDataptr }
  else
    .nullDeref

/-- Events of `reply_received`, in program order. -/
inductive ReplyEvent where
  | writeRetval (v : Nat)
  | writePayload (d : IpcCall)
  | writeBarrier
  | unlinkTimeout
  | setDone
  | setActive
  | addReady (ptid : Nat)
deriving Repr, DecidableEq

/-- `reply_received` (async.c lines 487-511) as a state transformer: store
the return value, copy the answer payload when `dataptr` is non-null,
unlink from the timeout list when applicable, set `done`, and wake the
owning fiber when it is parked. -/
def reply_received (m : Amsg) (retval : Nat) (data : IpcCall) : Amsg :=
  let m1 := { m with retval := retval }
  let m2 := if m1.hasDataptr then { m1 with dataCell := data } else m1
  let m3 := { m2 with done := true }
  if !m3.active then { m3 with active := true } else m3

/-- `reply_received` (async.c lines 487-511) as an event trace in program
order: the retval store and the payload copy come before `write_barrier()`,
which comes before `msg->done = 1`, which comes before the wake-up. -/
def reply_received_trace (m : Amsg) (retval : Nat) (data : IpcCall) :
    List ReplyEvent :=
  [ReplyEvent.writeRetval retval]
  ++ (if m.hasDataptr then [ReplyEvent.writePayload data] else [])
  ++ [ReplyEvent.writeBarrier]
  ++ (if m.has_timeout then [ReplyEvent.unlinkTimeout] else [])
  ++ [ReplyEvent.setDone]
  ++ (if !m.active then [ReplyEvent.setActive, ReplyEvent.addReady m.ptid] else [])

/-- Result of a wait on an outstanding message. -/
structure WaitResult where
  retvalOut : Option Nat
  freed : Bool
  blocked : Bool
deriving Repr, DecidableEq

/-- `async_wait_for` (async.c lines 539-560): when `done` already holds the
fiber never parks; otherwise it parks (`active = 0`, `has_timeout = 0`,
yield to manager) and `resume` is the amsg state observed at resume, after
`reply_received` ran.  In both cases the retval is read (when the out
pointer is non-null) and the `amsg_t` is freed. -/
def async_wait_for (m : Amsg) (hasRetvalPtr : Bool) (resume : Amsg) : WaitResult :=
  if m.done then
    { retvalOut := if hasRetvalPtr then some m.retval else none,
      freed := true, blocked := false }
  else
    { retvalOut := if hasRetvalPtr then some resume.retval else none,
      freed := true, blocked := true }

/-- `insert_timeout` (async.c lines 566-579): sorted insert into the
timeout list — walk forward while entries expire no later than `m`, and
link `m` before the first entry with a strictly greater expiry. -/
def insert_timeout (m : Amsg) : List Amsg → List Amsg
  | [] => [m]
  | cur :: rest =>
    if tv_gt cur.expires m.expires then m :: cur :: rest
    else cur :: insert_timeout m rest

/-- Result of `async_wait_timeout`. -/
structure WaitTimeoutResult where
  ret : Int
  retvalOut : Option Nat
  freed : Bool
  blocked : Bool
  timeoutList : List Amsg
deriving Repr, DecidableEq

/-- `async_wait_timeout` (async.c lines 590-622): when `done` already holds
the fiber never parks and the message is freed with return 0.  Otherwise
the message is parked (`ptid` recorded, `active = 0`, `has_timeout = 1`,
`expires = now + timeout` via `tv_add`) and inserted into the timeout list
by `insert_timeout`; `resume` is the amsg state observed at resume.  If the
reply has still not arrived (`!msg->done`) the function returns `ETIMEOUT`
without freeing; if it has, the retval is read (when requested), the
message is freed and the function returns 0. -/
def async_wait_timeout (m : Amsg) (hasRetvalPtr : Bool) (now : Timeval)
    (timeout : Int) (tlist : List Amsg) (ptid : Nat) (resume : Amsg) :
    WaitTimeoutResult :=
  if m.done then
    { ret := 0, retvalOut := if hasRetvalPtr then some m.retval else none,
      freed := true, blocked := false, timeoutList := tlist }
  else
    let parked : Amsg :=
      { m with ptid := ptid, active := false, has_timeout := true,
               expires := tv_add now timeout }
    let tlist2 := insert_timeout parked tlist
    if resume.done then
      { ret := 0, retvalOut := if hasRetvalPtr then some resume.retval else none,
        freed := true, blocked := true, timeoutList := tlist2 }
    else
      { ret := ETIMEOUT, retvalOut := none, freed := false, blocked := true,
        timeoutList := tlist2 }

/-- `inet_addr_t`, reduced to what the association layer inspects: the
address-family `version` and the address payload `words`. -/
structure InetAddr where
  version : Nat
  words : Nat
deriving Repr, DecidableEq

/-- Modelled from the spec: `inet_addr_is_any` is defined outside src/; the
spec distinguishes one ANY wildcard address sentinel, modelled as payload
0. -/
def inet_addr_is_any (a : InetAddr) : Bool := a.words == 0

/-- Modelled from the spec: the ANY wildcard port sentinel (`inet_port_any`,
defined outside src/). -/
def inet_port_any : Nat := 0

/-- `inet_ep_t`: one endpoint (address and port). -/
structure InetEp where
  addr : InetAddr
  port : Nat
deriving Repr, DecidableEq

/-- `inet_ep2_t`: endpoint pair plus local link.  The C field `local` is a
Lean keyword, hence `local_ep`. -/
structure InetEp2 where
  local_ep : InetEp
  remote : InetEp
  local_link : Nat
deriving Repr, DecidableEq

/-- `udp_rcv_queue_entry_t`: one entry of an association's receive queue.
The queued `udp_msg_t` is abstracted to an identifier. -/
structure RcvQueueEntry where
  epp : InetEp2
  msgId : Nat
deriving Repr, DecidableEq

/-- `udp_assoc_t` (state relevant to assoc.c): identity, receive queue,
`reset` and `deleted` flags, reference count. -/
structure UdpAssoc where
  ident : InetEp2
  rcv_queue : List RcvQueueEntry
  reset : Bool
  deleted : Bool
  refcnt : Nat
deriving Repr, DecidableEq

/-- External side effects of `udp_assoc_send`, in program order. -/
inductive SendEffect where
  | encodePdu
  | transmitPdu
  | deletePdu
deriving Repr, DecidableEq

/-- Result of `udp_assoc_send`: return code, external effects performed, and
the association state after the call. -/
structure SendResult where
  rc : Int
  effects : List SendEffect
  assocAfter : UdpAssoc
deriving Repr, DecidableEq

/-- Effective endpoint pair used by `udp_assoc_send` (assoc.c lines
266-268): a local snapshot `epp = assoc->ident`, with the remote endpoint
overwritten in the snapshot when a non-null override is supplied. -/
def effectiveEpp (assoc : UdpAssoc) (remote : Option InetEp) : InetEp2 :=
  match remote with
  | some r => { assoc.ident with remote := r }
  | none => assoc.ident

/-- `udp_assoc_send` (assoc.c lines 256-297).  `encode_ok` models the
outcome of `udp_pdu_encode` and `transmit_ok` that of `udp_transmit_pdu`
(both defined outside src/).  The wildcard/version checks happen on the
snapshot before any PDU is encoded; encode failure maps to `ENOMEM`,
transmit failure to `EIO`.  The association itself is never written. -/
def udp_assoc_send (assoc : UdpAssoc) (remote : Option InetEp)
    (encode_ok transmit_ok : Bool) : SendResult :=
  let epp := effectiveEpp assoc remote
  if inet_addr_is_any epp.remote.addr || epp.remote.port == inet_port_any then
    { rc := EINVAL, effects := [], assocAfter := assoc }
  else if epp.remote.addr.version ≠ epp.local_ep.addr.version then
    { rc := EINVAL, effects := [], assocAfter := assoc }
  else if !encode_ok then
    { rc := ENOMEM, effects := [SendEffect.encodePdu], assocAfter := assoc }
  else if !transmit_ok then
    { rc := EIO,
      effects := [SendEffect.encodePdu, SendEffect.transmitPdu, SendEffect.deletePdu],
      assocAfter := assoc }
  else
    { rc := EOK,
      effects := [SendEffect.encodePdu, SendEffect.transmitPdu, SendEffect.deletePdu],
      assocAfter := assoc }

/-- Outcome of one evaluation of `udp_assoc_recv`'s body. -/
inductive RecvOutcome where
  | blocked
  | ret (code : Int) (entry : Option RcvQueueEntry)
deriving Repr, DecidableEq

/-- Result of `udp_assoc_recv`: outcome plus association state after. -/
structure RecvResult where
  outcome : RecvOutcome
  assocAfter : UdpAssoc
deriving Repr, DecidableEq

/-- `udp_assoc_recv` (assoc.c lines 303-333), one evaluation of the wait
loop: with the queue empty and `reset` clear the fiber blocks on the
condition variable (`blocked`; the loop re-check at wake-up is another
evaluation of this function on the then-current state).  With `reset` set
it returns `ENXIO` without touching the queue; otherwise it pops the queue
head and hands it out. -/
def udp_assoc_recv (assoc : UdpAssoc) : RecvResult :=
  match assoc.rcv_queue, assoc.reset with
  | [], false => { outcome := RecvOutcome.blocked, assocAfter := assoc }
  | _, true => { outcome := RecvOutcome.ret ENXIO none, assocAfter := assoc }
  | e :: rest, false =>
    { outcome := RecvOutcome.ret EOK (some e),
      assocAfter := { assoc with rcv_queue := rest } }

/-- `udp_assoc_reset` (assoc.c lines 373-379): set `reset` and broadcast
the condition variable, waking every fiber blocked in `udp_assoc_recv`
(each such fiber then re-evaluates `udp_assoc_recv` on this state). -/
def udp_assoc_reset (assoc : UdpAssoc) : UdpAssoc :=
  { assoc with reset := true }

/-- Events of `udp_assoc_received`, in program order. -/
inductive UdpRecvEvent where
  | findRef
  | dropMsg
  | queueMsg
  | invokeCallback
  | delref
deriving Repr, DecidableEq

/-- `udp_assoc_received` (assoc.c lines 339-366) as an event trace, indexed
by whether `udp_assoc_find_ref` found a matching association.  When none is
found the message is deleted (`dropMsg`).  On the match path the
`if (0) { udp_assoc_queue_msg(...); }` block is dead and emits nothing;
the live code invokes `assoc->cb->recv_msg` and only then drops the
`find_ref` reference with `udp_assoc_delref`. -/
def udp_assoc_received (found : Bool) : List UdpRecvEvent :=
  if found then
    [UdpRecvEvent.findRef, UdpRecvEvent.invokeCallback, UdpRecvEvent.delref]
  else
    [UdpRecvEvent.findRef, UdpRecvEvent.dropMsg]

/-! Concrete inputs used by witnesses, counterexamples and failing-input
evaluations. -/

/-- A concrete incoming call whose phone hash is 16. -/
def callA : IpcCall :=
  { in_phone_hash := 16, method := 2, arg1 := 0, arg2 := 0, arg3 := 16,
    arg4 := 0, arg5 := 0 }

/-- A concrete registered connection for phone hash 16 with an empty FIFO. -/
def connA : Connection :=
  { in_phone_hash := 16, msg_queue := [], ptid := 1, active := false,
    callid := 5, call := callA }

/-- A concrete connection whose FIFO still holds one message (callid 77)
when its handler returns. -/
def connB : Connection :=
  { in_phone_hash := 16, msg_queue := [⟨77, callA⟩], ptid := 1,
    active := true, callid := 5, call := callA }

/-- Uninitialized `amsg_t` contents as returned by `malloc`. -/
def amsgGarbage : Amsg :=
  { ptid := 9, active := false, done := true, hasDataptr := false,
    dataCell := callA, expires := ⟨3, 4⟩, has_timeout := true, retval := 11 }

/-- A concrete outstanding message whose reply has not arrived. -/
def amsgUndone : Amsg :=
  { ptid := 2, active := true, done := false, hasDataptr := true,
    dataCell := callA, expires := ⟨0, 0⟩, has_timeout := false, retval := 0 }

/-- A concrete outstanding message whose reply has arrived with retval 42. -/
def amsgDone : Amsg :=
  { ptid := 2, active := false, done := true, hasDataptr := true,
    dataCell := callA, expires := ⟨0, 0⟩, has_timeout := false, retval := 42 }

/-- A concrete non-wildcard endpoint (version 4). -/
def epConcrete : InetEp :=
  { addr := { version := 4, words := 167772161 }, port := 53 }

/-- The ANY wildcard endpoint (address payload 0, port `inet_port_any`). -/
def epAny : InetEp :=
  { addr := { version := 4, words := 0 }, port := inet_port_any }

/-- A concrete association whose remote endpoint is the ANY wildcard. -/
def assocAnyRemote : UdpAssoc :=
  { ident := { local_ep := epConcrete, remote := epAny, local_link := 1 },
    rcv_queue := [], reset := false, deleted := false, refcnt := 1 }

/-- A concrete association with one queued receive entry and a fully
specified remote. -/
def assocWithMsg : UdpAssoc :=
  { ident :=
      { local_ep := epConcrete,
        remote := { addr := { version := 4, words := 134744072 }, port := 7 },
        local_link := 1 },
    rcv_queue := [{ epp := { local_ep := epConcrete,
                             remote := { addr := { version := 4, words := 134744072 }, port := 7 },
                             local_link := 1 },
                    msgId := 3 }],
    reset := false, deleted := false, refcnt := 2 }

/-! Theorems. -/

/-- C6: the claim states that for every normalized timeval and every
non-negative microsecond amount, `tv_add` yields a normalized timeval
(`0 ≤ usec < 1000000`).  The renormalization test in the source is the
strict `tv_usec > 1000000`, so when the microsecond sum lands exactly on
1000000 the result is not normalized: at tv = (0 s, 1 µs), u = 999999 µs
(both inputs satisfying the claim's preconditions) the code yields
tv_usec = 1000000, which fails `usec < 1000000`. -/
theorem tv_add_not_normalized :
    tv_add { tv_sec := 0, tv_usec := 1 } 999999 =
      { tv_sec := 0, tv_usec := 1000000 } ∧
    ¬ (tv_add { tv_sec := 0, tv_usec := 1 } 999999).tv_usec < 1000000 :=
  ⟨by decide, by decide⟩

/-- C2: the claim states that `route_call` and `async_send_2` handle
allocation failure of their internal message structure without
dereferencing a null pointer.  Both functions store through the `malloc`
result with no null check (`msg->callid = callid` in `route_call`,
`msg->active = 1` in `async_send_2`), so a failed allocation is an
unchecked null-pointer dereference on both paths, here evaluated on a
routed call to the registered connection `connA` and on a plain
`async_send_2`. -/
theorem alloc_failure_null_deref :
    route_call [connA] 7 callA false = CResult.nullDeref ∧
    async_send_2 1 2 3 4 amsgGarbage true false = CResult.nullDeref :=
  ⟨by decide, by decide⟩

/-- C1: the claim states the connection fiber first drains the FIFO
(answering `EHANGUP` and freeing each message) and only then removes the
connection from the table and frees the connection structure.  In the
source the order is reversed: `connection_thread` calls
`hash_table_remove` first, whose `remove_callback` (`conn_remove`) frees
the `connection_t`, and only afterwards walks `conn->msg_queue` to answer
the queued calls — on the freed structure.  Evaluated on `connB`, which
holds one queued message (callid 77) when the handler returns: the free
of the connection strictly precedes the `EHANGUP` answer. -/
theorem connection_thread_frees_before_flush :
    connection_thread connB =
      [ConnEvent.callHandler 5, ConnEvent.hashTableRemove 16,
       ConnEvent.freeConn, ConnEvent.answerCall 77 EHANGUP,
       ConnEvent.freeMsg 77] ∧
    ConnEvent.answerCall 77 EHANGUP ∈ connection_thread connB ∧
    (connection_thread connB).indexOf ConnEvent.freeConn <
      (connection_thread connB).indexOf (ConnEvent.answerCall 77 EHANGUP) :=
  ⟨by decide, by decide, by decide⟩

/-- C9 counterexample: the claim states that in `udp_assoc_received`, on
the path where a matching association is found, the `delref` is performed
before the `recv_msg` callback is invoked.  In the source the callback
invocation (line 364) precedes the `udp_assoc_delref` (line 365), so on
the match-path trace `delref` does not occur before `invokeCallback`. -/
theorem udp_assoc_received_delref_order_cex :
    ¬ ((udp_assoc_received true).indexOf UdpRecvEvent.delref <
       (udp_assoc_received true).indexOf UdpRecvEvent.invokeCallback) := by
  decide

/-- C9 amended: in `udp_assoc_received`, on the path where a matching
association is found, the `recv_msg` callback is invoked first and the
`delref` that drops the `find_ref` reference is performed after the
callback. -/
theorem udp_assoc_received_callback_before_delref :
    UdpRecvEvent.invokeCallback ∈ udp_assoc_received true ∧
    UdpRecvEvent.delref ∈ udp_assoc_received true ∧
    (udp_assoc_received true).indexOf UdpRecvEvent.invokeCallback <
      (udp_assoc_received true).indexOf UdpRecvEvent.delref := by
  decide

/-- C5: calls routed to a connection are delivered to its fiber in enqueue
order.  `route_call` appends each new message at the tail of the FIFO
(`connEnqueue`, the queue-append step of `route_call`) and `async_get_call`
always removes the head, so for every starting queue and every interleaving
of enqueues and dequeues, the messages delivered so far followed by the
messages still queued are exactly the initial queue followed by the
messages in enqueue order — i.e. delivery order equals enqueue order. -/
theorem async_fifo_order (conn : Connection) (ops : List QOp) :
    (runQueueOps conn ops).1 ++ (runQueueOps conn ops).2.msg_queue
      = conn.msg_queue ++ enqList ops := by
  induction ops generalizing conn with
  | nil => simp [runQueueOps, enqList]
  | cons op ops ih =>
    cases op with
    | enq cid c =>
      have h := ih (connEnqueue conn cid c)
      simp only [runQueueOps, enqList]
      rw [h]
      simp [connEnqueue]
    | deq =>
      cases hq : conn.msg_queue with
      | nil =>
        have h2 := ih conn
        simp only [runQueueOps, async_get_call, hq, enqList]
        rw [h2, hq]
      | cons m rest =>
        have h2 := ih { conn with msg_queue := rest }
        simp only [runQueueOps, async_get_call, hq, enqList]
        rw [List.cons_append, h2]
        simp [hq]

/-- C3: for every outstanding message on which `async_wait_timeout` blocks:
if on resume the reply has not arrived it returns `ETIMEOUT` and does not
free the message; if the reply has arrived it stores the retval (when the
out pointer is non-null), frees the message and returns 0; and when `done`
already holds on entry it frees and returns 0 without blocking. -/
theorem async_wait_timeout_spec (m : Amsg) (hp : Bool) (now : Timeval)
    (timeout : Int) (tl : List Amsg) (ptid : Nat) (resume : Amsg) :
    (m.done = false → resume.done = false →
      (async_wait_timeout m hp now timeout tl ptid resume).ret = ETIMEOUT ∧
      (async_wait_timeout m hp now timeout tl ptid resume).freed = false) ∧
    (m.done = false → resume.done = true →
      (async_wait_timeout m hp now timeout tl ptid resume).ret = 0 ∧
      (async_wait_timeout m hp now timeout tl ptid resume).freed = true ∧
      (hp = true →
        (async_wait_timeout m hp now timeout tl ptid resume).retvalOut
          = some resume.retval)) ∧
    (m.done = true →
      (async_wait_timeout m hp now timeout tl ptid resume).ret = 0 ∧
      (async_wait_timeout m hp now timeout tl ptid resume).freed = true ∧
      (async_wait_timeout m hp now timeout tl ptid resume).blocked = false ∧
      (hp = true →
        (async_wait_timeout m hp now timeout tl ptid resume).retvalOut
          = some m.retval)) := by
  cases hp <;> cases hm : m.done <;> cases hr : resume.done <;>
    simp [async_wait_timeout, hm, hr]

/-- C3 witness: concrete runs through all three branches — a wait that
times out (reply still missing on resume) returns `ETIMEOUT` without
freeing; a wait resumed with the reply present returns 0, frees, and
reports retval 42; a wait entered with `done` already set does not block. -/
theorem async_wait_timeout_spec_witness :
    (async_wait_timeout amsgUndone true ⟨0, 0⟩ 1000 [] 3 amsgUndone).ret = ETIMEOUT ∧
    (async_wait_timeout amsgUndone true ⟨0, 0⟩ 1000 [] 3 amsgUndone).freed = false ∧
    (async_wait_timeout amsgUndone true ⟨0, 0⟩ 1000 [] 3 amsgDone).ret = 0 ∧
    (async_wait_timeout amsgUndone true ⟨0, 0⟩ 1000 [] 3 amsgDone).retvalOut = some 42 ∧
    (async_wait_timeout amsgDone true ⟨0, 0⟩ 1000 [] 3 amsgDone).blocked = false := by
  have h1 := (async_wait_timeout_spec amsgUndone true ⟨0, 0⟩ 1000 [] 3
    amsgUndone).1 (by decide) (by decide)
  have h2 := (async_wait_timeout_spec amsgUndone true ⟨0, 0⟩ 1000 [] 3
    amsgDone).2.1 (by decide) (by decide)
  have h3 := (async_wait_timeout_spec amsgDone true ⟨0, 0⟩ 1000 [] 3
    amsgDone).2.2 (by decide)
  refine ⟨h1.1, h1.2, h2.1, ?_, h3.2.2.1⟩
  rw [h2.2.2 rfl]
  rfl

/-- C4: whenever `done` is observed true on an outstanding message, the
retval (and, when the data pointer is non-null, the answer payload) already
holds what the reply callback wrote: in the state after `reply_received`,
`done` holds, `retval` is the callback's value and the payload cell was
updated; in the program-order trace of `reply_received` the retval store
and the payload copy both occur strictly before `setDone`; and a waiter
(`async_wait_for`) resumed on that state reads exactly the callback's
retval. -/
theorem reply_received_publishes_before_done (m : Amsg) (v : Nat) (d : IpcCall) :
    (reply_received m v d).done = true ∧
    (reply_received m v d).retval = v ∧
    (reply_received m v d).dataCell = (if m.hasDataptr then d else m.dataCell) ∧
    (∃ pre post,
      reply_received_trace m v d = pre ++ ReplyEvent.setDone :: post ∧
      ReplyEvent.writeRetval v ∈ pre ∧
      (m.hasDataptr = true → ReplyEvent.writePayload d ∈ pre) ∧
      ReplyEvent.setDone ∉ pre) ∧
    (async_wait_for (reply_received m v d) true (reply_received m v d)).retvalOut
      = some v := by
  have hdone : (reply_received m v d).done = true := by
    cases hd : m.hasDataptr <;> cases ha : m.active <;>
      simp [reply_received, hd, ha]
  have hret : (reply_received m v d).retval = v := by
    cases hd : m.hasDataptr <;> cases ha : m.active <;>
      simp [reply_received, hd, ha]
  refine ⟨hdone, hret, ?_, ?_, ?_⟩
  · cases hd : m.hasDataptr <;> cases ha : m.active <;>
      simp [reply_received, hd, ha]
  · cases hd : m.hasDataptr <;> cases ht : m.has_timeout
    · exact ⟨[ReplyEvent.writeRetval v, ReplyEvent.writeBarrier],
        (if !m.active then [ReplyEvent.setActive, ReplyEvent.addReady m.ptid] else []),
        by simp [reply_received_trace, hd, ht], by simp, by simp [hd], by simp⟩
    · exact ⟨[ReplyEvent.writeRetval v, ReplyEvent.writeBarrier,
          ReplyEvent.unlinkTimeout],
        (if !m.active then [ReplyEvent.setActive, ReplyEvent.addReady m.ptid] else []),
        by simp [reply_received_trace, hd, ht], by simp, by simp [hd], by simp⟩
    · exact ⟨[ReplyEvent.writeRetval v, ReplyEvent.writePayload d,
          ReplyEvent.writeBarrier],
        (if !m.active then [ReplyEvent.setActive, ReplyEvent.addReady m.ptid] else []),
        by simp [reply_received_trace, hd, ht], by simp, by simp, by simp⟩
    · exact ⟨[ReplyEvent.writeRetval v, ReplyEvent.writePayload d,
          ReplyEvent.writeBarrier, ReplyEvent.unlinkTimeout],
        (if !m.active then [ReplyEvent.setActive, ReplyEvent.addReady m.ptid] else []),
        by simp [reply_received_trace, hd, ht], by simp, by simp, by simp⟩
  · simp [async_wait_for, hdone, hret]

/-- C4 witness: the reply callback's retval is what an immediate waiter
reads, evaluated at a concrete message and retval 7. -/
theorem reply_received_publishes_before_done_witness :
    (reply_received amsgUndone 7 callA).retval = 7 ∧
    (reply_received amsgUndone 7 callA).done = true :=
  ⟨(reply_received_publishes_before_done amsgUndone 7 callA).2.1,
   (reply_received_publishes_before_done amsgUndone 7 callA).1⟩

/-- C7: `udp_assoc_send` returns `EINVAL` whenever the effective remote
address (after the optional override) is the ANY wildcard, the effective
remote port is the ANY wildcard, or the remote and local address versions
differ — and in each case it returns before encoding a PDU, so no external
effect (encode, transmit, delete) is performed. -/
theorem udp_assoc_send_rejects_invalid (assoc : UdpAssoc) (remote : Option InetEp)
    (encode_ok transmit_ok : Bool)
    (h : inet_addr_is_any (effectiveEpp assoc remote).remote.addr = true
       ∨ (effectiveEpp assoc remote).remote.port = inet_port_any
       ∨ (effectiveEpp assoc remote).remote.addr.version
           ≠ (effectiveEpp assoc remote).local_ep.addr.version) :
    (udp_assoc_send assoc remote encode_ok transmit_ok).rc = EINVAL ∧
    (udp_assoc_send assoc remote encode_ok transmit_ok).effects = [] := by
  rcases h with h | h | h
  · have h1 : (inet_addr_is_any (effectiveEpp assoc remote).remote.addr
        || ((effectiveEpp assoc remote).remote.port == inet_port_any)) = true := by
      simp [h]
    simp [udp_assoc_send, h1]
  · have h1 : (inet_addr_is_any (effectiveEpp assoc remote).remote.addr
        || ((effectiveEpp assoc remote).remote.port == inet_port_any)) = true := by
      simp [h]
    simp [udp_assoc_send, h1]
  · by_cases h1 : (inet_addr_is_any (effectiveEpp assoc remote).remote.addr
        || ((effectiveEpp assoc remote).remote.port == inet_port_any)) = true
    · simp [udp_assoc_send, h1]
    · simp [udp_assoc_send, h1, h]

/-- C7 witness: sending on `assocAnyRemote`, whose remote address is the
ANY wildcard and with no override, yields `EINVAL` and performs no
external effect. -/
theorem udp_assoc_send_rejects_invalid_witness :
    (udp_assoc_send assocAnyRemote none true true).rc = EINVAL ∧
    (udp_assoc_send assocAnyRemote none true true).effects = [] :=
  udp_assoc_send_rejects_invalid assocAnyRemote none true true (Or.inl (by decide))

/-- C8: after `udp_assoc_reset` sets the `reset` flag and broadcasts the
condition variable, every woken waiter re-evaluates `udp_assoc_recv` on
the reset state and gets `ENXIO` (never a message), the receive queue is
left untouched, the association state is unchanged, and therefore every
subsequent `udp_assoc_recv` also returns `ENXIO`. -/
theorem udp_assoc_recv_after_reset (assoc : UdpAssoc) :
    (udp_assoc_recv (udp_assoc_reset assoc)).outcome = RecvOutcome.ret ENXIO none ∧
    (udp_assoc_recv (udp_assoc_reset assoc)).assocAfter = udp_assoc_reset assoc ∧
    (udp_assoc_recv (udp_assoc_reset assoc)).assocAfter.rcv_queue = assoc.rcv_queue ∧
    (udp_assoc_recv ((udp_assoc_recv (udp_assoc_reset assoc)).assocAfter)).outcome
      = RecvOutcome.ret ENXIO none := by
  cases hq : assoc.rcv_queue <;> simp [udp_assoc_recv, udp_assoc_reset, hq]

/-- C10: `udp_assoc_send` never modifies the association it is given: it
works on a local snapshot of `assoc->ident` (into which any remote
override is written), so the association — in particular its `ident` with
both endpoints and `local_link` — is unchanged after the call, for every
override and every encode/transmit outcome. -/
theorem udp_assoc_send_preserves_assoc (assoc : UdpAssoc) (remote : Option InetEp)
    (encode_ok transmit_ok : Bool) :
    (udp_assoc_send assoc remote encode_ok transmit_ok).assocAfter = assoc ∧
    (udp_assoc_send assoc remote encode_ok transmit_ok).assocAfter.ident
      = assoc.ident := by
  have h : (udp_assoc_send assoc remote encode_ok transmit_ok).assocAfter = assoc := by
    simp only [udp_assoc_send]
    split
    · rfl
    · split
      · rfl
      · split
        · rfl
        · split <;> rfl
  exact ⟨h, by rw [h]⟩

end HelenOS
